import Mathlib

/-!
Shallow embedding of `src/chatbot.py`: the lexicon classifiers
(`analyze_sentiment`, `classify_intent`), the keyword response selector
(`get_response`), and the `ConversationHistory` store (`add`, `clear`,
`display`, `save_to_file`, `load_from_file`) together with a model of the
JSON file states the loader can encounter.
-/

namespace Chatbot

/-! ### JSON values, Python-level exceptions, and on-disk file states -/

/-- A JSON value as produced by `json.load`. -/
inductive JValue where
  | null
  | bool (b : Bool)
  | num (n : Int)
  | str (s : String)
  | arr (elems : List JValue)
  | obj (fields : List (String × JValue))

/-- The Python exceptions relevant to the persistence code paths. -/
inductive PyErr where
  | jsonDecodeError
  | ioError
  | typeError
  | indexError
  | keyError
deriving DecidableEq

/-- An in-memory record as held in `self.messages` after loading: a Python
triple whose components are whatever values the JSON file supplied. -/
abbrev PRecord := JValue × JValue × JValue

/-- The possible states of the persistence file as seen by
`load_from_file`: missing, existing but unreadable (IOError on open/read),
readable but not syntactically valid JSON, or readable JSON. -/
inductive FileState where
  | absent
  | unreadable
  | invalidJson
  | json (v : JValue)

/-! ### Models of the Python string builtins used by the chatbot -/

/-- Membership in the whitespace class used by `str.split()` and
`str.strip()` (ASCII subset). -/
def isPySpace (c : Char) : Bool :=
  c == ' ' || c == '\t' || c == '\n' || c == '\r' || c == '\x0b' || c == '\x0c'

/-- Model of `str.lower()` (character-wise ASCII lowering). -/
def pyLower (s : String) : String :=
  String.mk (s.data.map Char.toLower)

/-- Helper for the whitespace tokenizer: `acc` is the current token,
accumulated in reverse. -/
def splitWSAux : List Char → List Char → List (List Char)
  | [], acc => if acc = [] then [] else [acc.reverse]
  | c :: rest, acc =>
    if isPySpace c then
      if acc = [] then splitWSAux rest []
      else acc.reverse :: splitWSAux rest []
    else splitWSAux rest (c :: acc)

/-- Whitespace tokenizer behind `str.split()` with no argument: splits on
runs of whitespace and never yields empty tokens. -/
def splitWS (cs : List Char) : List (List Char) :=
  splitWSAux cs []

/-- Model of `str.split()` with no argument. -/
def pySplit (s : String) : List String :=
  (splitWS s.data).map String.mk

/-- Model of `str.strip(chars)`: removes leading and trailing characters
belonging to `cs`. -/
def pyStripChars (cs : List Char) (s : String) : String :=
  String.mk (((s.data.dropWhile (fun c => cs.contains c)).reverse.dropWhile
    (fun c => cs.contains c)).reverse)

/-- Model of `str.strip()` with no argument (whitespace stripping). -/
def pyStripWS (s : String) : String :=
  String.mk (((s.data.dropWhile isPySpace).reverse.dropWhile isPySpace).reverse)

/-- Model of `str.endswith(suffix)`. -/
def pyEndsWith (s suffix : String) : Bool :=
  decide (suffix.data <:+ s.data)

/-- Model of the Python substring test `sub in s`. -/
def pySubstr (sub s : String) : Bool :=
  decide (sub.data <:+: s.data)

/-! ### Sentiment analysis (`analyze_sentiment`) -/

/-- The module-level constant `POSITIVE_WORDS` (duplicate entry kept). -/
def POSITIVE_WORDS : List String :=
  ["good", "great", "awesome", "excellent", "love", "happy", "nice", "wonderful",
   "fantastic", "amazing", "brilliant", "perfect", "beautiful", "wonderful",
   "delighted", "thrilled", "excited", "pleased", "glad", "joy", "superb"]

/-- The module-level constant `NEGATIVE_WORDS` (duplicate entries kept). -/
def NEGATIVE_WORDS : List String :=
  ["bad", "terrible", "hate", "sad", "angry", "awful", "poor", "disappointed",
   "frustrated", "upset", "annoyed", "miserable", "awful", "disgusting", "horrible",
   "dreadful", "dislike", "worse", "worst", "worst", "pathetic", "useless"]

/-- The punctuation set stripped from tokens in `analyze_sentiment`. -/
def SENTIMENT_STRIP : List Char := ['.', ',', '!', '?', ';', ':']

/-- The `pos_count` computed inside `analyze_sentiment`. -/
def posCount (message : String) : Nat :=
  (pySplit (pyLower message)).countP
    (fun word => POSITIVE_WORDS.contains (pyStripChars SENTIMENT_STRIP word))

/-- The `neg_count` computed inside `analyze_sentiment`. -/
def negCount (message : String) : Nat :=
  (pySplit (pyLower message)).countP
    (fun word => NEGATIVE_WORDS.contains (pyStripChars SENTIMENT_STRIP word))

/-- Embedding of `analyze_sentiment`. -/
def analyze_sentiment (message : String) : String :=
  if posCount message > negCount message ∧ posCount message > 0 then "positive"
  else if negCount message > posCount message ∧ negCount message > 0 then "negative"
  else "neutral"

/-- Embedding of `get_sentiment_emoji` (`dict.get` with the neutral emoji as
default; the literals reproduce the exact code points of the source file). -/
def get_sentiment_emoji (sentiment : String) : String :=
  if sentiment = "positive" then "ðŸ˜Š"
  else if sentiment = "negative" then "ðŸ˜ž"
  else if sentiment = "neutral" then "ðŸ˜"
  else "ðŸ˜"

/-! ### Intent classification (`classify_intent`) -/

/-- The module-level constant `QUESTION_WORDS`. -/
def QUESTION_WORDS : List String :=
  ["what", "when", "where", "why", "how", "who", "which", "can", "could",
   "would", "do", "did", "does"]

/-- The module-level constant `GREETING_WORDS`. -/
def GREETING_WORDS : List String :=
  ["hello", "hi", "hey", "greetings", "welcome", "sup", "yo", "howdy"]

/-- The module-level constant `COMMAND_WORDS`. -/
def COMMAND_WORDS : List String :=
  ["history", "clear", "help", "exit", "quit", "bye"]

/-- Embedding of `classify_intent`. -/
def classify_intent (message : String) : String :=
  let msg_lower := pyLower message
  let words := pySplit msg_lower
  if words.any (fun word => COMMAND_WORDS.contains word) then "command"
  else if words.any (fun word => GREETING_WORDS.contains word) then "greeting"
  else if words.any (fun word => QUESTION_WORDS.contains word)
      || pyEndsWith msg_lower "?" then "question"
  else "statement"

/-! ### Response selection (`get_response`)

The module-level tables are bound twice in the source with identical
contents; the embedding keeps the final binding. `random.choice` is
modelled by an explicit `choice` oracle passed to `get_response`; the
keyword branch never consults it. Apostrophes inside the response strings
are written with the `\x27` escape. -/

/-- The module-level constant `RESPONSES`, an insertion-ordered table. -/
def RESPONSES : List (String × String) :=
  [("hello", "Hello! How can I help you today?"),
   ("hi", "Hi there! What would you like to talk about?"),
   ("help", "I can chat with you and remember our conversation. Type \x27history\x27 to see what we\x27ve talked about, or just keep chatting!"),
   ("bye", "Goodbye! Have a great day!"),
   ("thanks", "You\x27re welcome!"),
   ("thank you", "Happy to help!")]

/-- The module-level constant `FALLBACKS`. -/
def FALLBACKS : List String :=
  ["I\x27m not sure I understand. Can you rephrase?",
   "Interesting â€” tell me more.",
   "Hmm, I don\x27t have a good answer for that yet."]

/-- The `question_responses` pool inside `get_response`. -/
def question_responses : List String :=
  ["That\x27s a great question! Let me think...",
   "Good question! I\x27m not sure I have a perfect answer, but here\x27s what I think...",
   "I\x27m glad you asked that.",
   "That\x27s something to consider."]

/-- The `greeting_responses` pool inside `get_response`. -/
def greeting_responses : List String :=
  ["Hello! Great to see you!",
   "Hi there! How are you doing?",
   "Hey! What\x27s on your mind?",
   "Greetings! What can I help with?"]

/-- The `pos_responses` pool inside `get_response`. -/
def pos_responses : List String :=
  ["That\x27s wonderful to hear!",
   "I\x27m glad you\x27re excited!",
   "That sounds amazing!",
   "That\x27s great! Tell me more."]

/-- The `neg_responses` pool inside `get_response`. -/
def neg_responses : List String :=
  ["I\x27m sorry to hear that. That sounds frustrating.",
   "I understand. That must be difficult.",
   "I feel for you. Is there anything I can help with?",
   "That\x27s tough. I\x27m here to listen."]

/-- The `statement_responses` pool inside `get_response`. -/
def statement_responses : List String :=
  ["That\x27s interesting! Tell me more.",
   "I see. Can you elaborate?",
   "That makes sense.",
   "Interesting perspective."]

/-- Embedding of `get_response`; `choice` stands for `random.choice`. -/
def get_response (choice : List String → String)
    (message sentiment intent : String) : String :=
  if pyStripWS message = "" then "Say something so I can respond!"
  else
    let msg := pyLower message
    match RESPONSES.find? (fun kv => pySubstr kv.1 msg) with
    | some kv => kv.2
    | none =>
      if intent = "question" then choice question_responses
      else if intent = "greeting" then choice greeting_responses
      else if intent = "statement" then
        if sentiment = "positive" then choice pos_responses
        else if sentiment = "negative" then choice neg_responses
        else choice statement_responses
      else choice FALLBACKS

/-! ### The `ConversationHistory` store -/

/-- A well-formed in-memory message as appended by `add`: the Python
tuple `(speaker, text, sentiment)` of strings. -/
structure Turn where
  speaker : String
  text : String
  sentiment : String
deriving DecidableEq

/-- The `PRecord` corresponding to a well-formed `Turn` (Python strings
embed as `JValue.str`). -/
def toPRecord (t : Turn) : PRecord :=
  (JValue.str t.speaker, JValue.str t.text, JValue.str t.sentiment)

/-- The JSON array `json.dump` writes for one message tuple. -/
def encodeTurn (t : Turn) : JValue :=
  JValue.arr [JValue.str t.speaker, JValue.str t.text, JValue.str t.sentiment]

/-- The JSON document `json.dump` writes for `self.messages`. -/
def encodeHistory (msgs : List Turn) : JValue :=
  JValue.arr (msgs.map encodeTurn)

/-- Outcome of `save_to_file`: either the file is rewritten, or the
`IOError` is caught and reported as a printed warning. -/
inductive WriteResult where
  | written (file : FileState)
  | warning

/-- Embedding of `ConversationHistory.save_to_file`; `ioFails` says whether
the underlying file write raises `IOError`. The method itself never raises:
the `IOError` is caught and turned into a warning. -/
def save_to_file (msgs : List Turn) (ioFails : Bool) : WriteResult :=
  if ioFails then WriteResult.warning
  else WriteResult.written (FileState.json (encodeHistory msgs))

/-- The buffer update inside `ConversationHistory.add`: append, then pop
the front element once if the length now exceeds `maxSize`. -/
def addEvict (msgs : List α) (maxSize : Nat) (t : α) : List α :=
  let m := msgs ++ [t]
  if maxSize < m.length then m.drop 1 else m

/-- Embedding of `ConversationHistory.add`: update the buffer, then persist;
returns the new buffer and the write outcome. -/
def add (msgs : List Turn) (maxSize : Nat) (speaker text sentiment : String)
    (ioFails : Bool) : List Turn × WriteResult :=
  let m := addEvict msgs maxSize (Turn.mk speaker text sentiment)
  (m, save_to_file m ioFails)

/-- Embedding of `ConversationHistory.clear`: empty the buffer and persist. -/
def clear (ioFails : Bool) : List Turn × WriteResult :=
  ([], save_to_file [] ioFails)

/-! ### Loading (`load_from_file`) over raw JSON -/

/-- Python iteration over a sized value: elements of a list, the
single-character strings of a string, the keys of a dict. -/
def pyElems : JValue → Option (List JValue)
  | JValue.arr xs => some xs
  | JValue.str s => some (s.data.map (fun c => JValue.str (String.mk [c])))
  | JValue.obj fs => some (fs.map (fun p => JValue.str p.1))
  | _ => none

/-- Python `len(v)`: raises `TypeError` on values without a length. -/
def pyLen (v : JValue) : Except PyErr Nat :=
  match pyElems v with
  | some es => Except.ok es.length
  | none => Except.error PyErr.typeError

/-- Python `v[i]` for a non-negative literal index: `IndexError` past the
end of a list or string, `KeyError` for a dict (JSON keys are strings, so
an integer key never matches), `TypeError` otherwise. -/
def pyIndex (v : JValue) (i : Nat) : Except PyErr JValue :=
  match v with
  | JValue.obj _ => Except.error PyErr.keyError
  | JValue.arr xs =>
    match xs.drop i with
    | x :: _ => Except.ok x
    | [] => Except.error PyErr.indexError
  | JValue.str s =>
    match s.data.drop i with
    | c :: _ => Except.ok (JValue.str (String.mk [c]))
    | [] => Except.error PyErr.indexError
  | _ => Except.error PyErr.typeError

/-- Python `data[-n:]` (note `-0` is `0`, so `n = 0` keeps everything):
defined for lists and strings, `TypeError` otherwise (slicing a dict or a
scalar raises). -/
def pySliceLast (v : JValue) (n : Nat) : Except PyErr (List JValue) :=
  match v with
  | JValue.arr xs =>
    Except.ok (if n = 0 then xs else xs.drop (xs.length - n))
  | JValue.str s =>
    let cs := s.data.map (fun c => JValue.str (String.mk [c]))
    Except.ok (if n = 0 then cs else cs.drop (cs.length - n))
  | _ => Except.error PyErr.typeError

/-- The per-record conversion in the `load_from_file` comprehension:
`tuple(msg) if len(msg) == 3 else (msg[0], msg[1], "neutral")`. -/
def decodeRecord (msg : JValue) : Except PyErr PRecord :=
  match pyLen msg with
  | Except.error e => Except.error e
  | Except.ok n =>
    if n = 3 then
      match pyElems msg with
      | some (a :: b :: c :: _) => Except.ok (a, b, c)
      | _ => Except.error PyErr.typeError
    else
      match pyIndex msg 0 with
      | Except.error e => Except.error e
      | Except.ok a =>
        match pyIndex msg 1 with
        | Except.error e => Except.error e
        | Except.ok b => Except.ok (a, b, JValue.str "neutral")

/-- The list comprehension of `load_from_file`: converts records left to
right, propagating the first uncaught exception. -/
def mapDecode : List JValue → Except PyErr (List PRecord)
  | [] => Except.ok []
  | r :: rs =>
    match decodeRecord r with
    | Except.error e => Except.error e
    | Except.ok t =>
      match mapDecode rs with
      | Except.error e => Except.error e
      | Except.ok ts => Except.ok (t :: ts)

/-- Body of the `try` block of `load_from_file` after `json.load`
succeeded: slice to the last `maxSize` records and convert each. -/
def loadBody (maxSize : Nat) (v : JValue) : Except PyErr (List PRecord) :=
  match pySliceLast v maxSize with
  | Except.error e => Except.error e
  | Except.ok items => mapDecode items

/-- Embedding of `ConversationHistory.load_from_file` as called by the
constructor (prior buffer empty). Only `json.JSONDecodeError` and `IOError`
are caught; any other exception propagates to the caller. -/
def load_from_file (maxSize : Nat) (fs : FileState) :
    Except PyErr (List PRecord) :=
  match fs with
  | FileState.absent => Except.ok []
  | FileState.unreadable => Except.ok []
  | FileState.invalidJson => Except.ok []
  | FileState.json v =>
    match loadBody maxSize v with
    | Except.ok recs => Except.ok recs
    | Except.error PyErr.jsonDecodeError => Except.ok []
    | Except.error PyErr.ioError => Except.ok []
    | Except.error e => Except.error e

/-! ### Display (`ConversationHistory.display`) -/

/-- The line `display` builds for one turn: two-space indent, sentiment
emoji, speaker label, and text. -/
def displayLine (t : Turn) : String :=
  "  " ++ get_sentiment_emoji t.sentiment ++ " " ++
    (if t.speaker = "user" then "You" else "Bot") ++ ": " ++ t.text

/-- Embedding of `ConversationHistory.display`: the empty buffer renders the
no-history line; otherwise a header line followed by one line per turn,
joined with newlines (the loop is the fold). -/
def display (msgs : List Turn) : String :=
  if msgs.isEmpty then "No conversation history yet."
  else
    String.intercalate "\n"
      (msgs.foldl (fun lines t => lines ++ [displayLine t])
        ["ðŸ“ Conversation History:"])

/-! ### Spec-side helpers used in theorem statements -/

/-- The last `n` elements of a list (the spec notion of the most recent `n`
records). -/
def lastN (n : Nat) (xs : List α) : List α :=
  xs.drop (xs.length - n)

/-- Iterated buffer updates: `addEvict` applied to each element of `ts` in
order. -/
def addAllEvict (maxSize : Nat) (msgs : List α) (ts : List α) : List α :=
  ts.foldl (fun acc t => addEvict acc maxSize t) msgs

/-! ### Helper lemmas -/

theorem lastN_length (n : Nat) (xs : List α) :
    (lastN n xs).length = min n xs.length := by
  unfold lastN
  rw [List.length_drop]
  omega

theorem lastN_of_le (n : Nat) (xs : List α) (h : xs.length ≤ n) :
    lastN n xs = xs := by
  unfold lastN
  rw [Nat.sub_eq_zero_of_le h, List.drop_zero]

theorem lastN_append (n : Nat) (xs ys : List α) (h : n ≤ ys.length) :
    lastN n (xs ++ ys) = lastN n ys := by
  unfold lastN
  rw [List.length_append,
    show xs.length + ys.length - n = xs.length + (ys.length - n) by omega,
    List.drop_append]

theorem lastN_cat (n : Nat) (xs ys : List α) :
    lastN n (lastN n xs ++ ys) = lastN n (xs ++ ys) := by
  unfold lastN
  rw [← List.drop_append_of_le_length (Nat.sub_le xs.length n),
    List.drop_drop, List.length_append, List.length_drop, List.length_append]
  congr 1
  omega

theorem addEvict_eq_lastN (acc : List α) (N : Nat) (t : α)
    (h : acc.length ≤ N) : addEvict acc N t = lastN N (acc ++ [t]) := by
  unfold addEvict lastN
  by_cases hc : N < (acc ++ [t]).length
  · rw [if_pos hc]
    have hidx : (acc ++ [t]).length - N = 1 := by
      simp only [List.length_append, List.length_cons, List.length_nil] at hc ⊢
      omega
    rw [hidx]
  · rw [if_neg hc]
    have hidx : (acc ++ [t]).length - N = 0 := by
      simp only [List.length_append, List.length_cons, List.length_nil] at hc ⊢
      omega
    rw [hidx, List.drop_zero]

theorem addEvict_length_le (acc : List α) (N : Nat) (t : α)
    (h : acc.length ≤ N) : (addEvict acc N t).length ≤ N := by
  rw [addEvict_eq_lastN acc N t h, lastN_length]
  omega

theorem addAllEvict_eq_lastN (N : Nat) (ts : List α) :
    ∀ acc : List α, acc.length ≤ N →
      addAllEvict N acc ts = lastN N (acc ++ ts) := by
  induction ts with
  | nil =>
    intro acc h
    unfold addAllEvict
    rw [List.foldl_nil, List.append_nil, lastN_of_le N acc h]
  | cons t ts ih =>
    intro acc h
    unfold addAllEvict at ih ⊢
    rw [List.foldl_cons, addEvict_eq_lastN acc N t h]
    have hlen : (lastN N (acc ++ [t])).length ≤ N := by
      rw [lastN_length]; omega
    rw [ih _ hlen, lastN_cat, List.append_assoc, List.singleton_append]

theorem mapDecode_length (l : List JValue) (out : List PRecord)
    (h : mapDecode l = Except.ok out) : out.length = l.length := by
  induction l generalizing out with
  | nil =>
    simp only [mapDecode] at h
    cases h
    rfl
  | cons r rs ih =>
    simp only [mapDecode] at h
    cases hr : decodeRecord r with
    | error e => rw [hr] at h; cases h
    | ok t =>
      rw [hr] at h
      cases hrs : mapDecode rs with
      | error e => rw [hrs] at h; cases h
      | ok ts =>
        rw [hrs] at h
        cases h
        simp only [List.length_cons, ih ts hrs]

theorem mapDecode_cons (x : JValue)
    (rs : List JValue) (t : PRecord) (ts : List PRecord)
    (hx : decodeRecord x = Except.ok t) (hrs : mapDecode rs = Except.ok ts) :
    mapDecode (x :: rs) = Except.ok (t :: ts) := by
  simp only [mapDecode, hx, hrs]

theorem mapDecode_append (l₁ l₂ : List JValue) (o₁ o₂ : List PRecord)
    (h₁ : mapDecode l₁ = Except.ok o₁) (h₂ : mapDecode l₂ = Except.ok o₂) :
    mapDecode (l₁ ++ l₂) = Except.ok (o₁ ++ o₂) := by
  induction l₁ generalizing o₁ with
  | nil =>
    simp only [mapDecode] at h₁
    cases h₁
    simpa using h₂
  | cons r rs ih =>
    rw [List.cons_append]
    simp only [mapDecode] at h₁ ⊢
    cases hr : decodeRecord r with
    | error e => rw [hr] at h₁; cases h₁
    | ok t =>
      rw [hr] at h₁
      cases hrs : mapDecode rs with
      | error e => rw [hrs] at h₁; cases h₁
      | ok ts =>
        rw [hrs] at h₁
        cases h₁
        simp only [hr, ih ts hrs, List.cons_append]

theorem decodeRecord_encodeTurn (t : Turn) :
    decodeRecord (encodeTurn t) = Except.ok (toPRecord t) := rfl

theorem mapDecode_encode (msgs : List Turn) :
    mapDecode (msgs.map encodeTurn) = Except.ok (msgs.map toPRecord) := by
  induction msgs with
  | nil => rfl
  | cons t ts ih =>
    simp only [List.map_cons, mapDecode, decodeRecord_encodeTurn, ih]

theorem pySliceLast_ok_length (v : JValue) (n : Nat) (items : List JValue)
    (hn : 1 ≤ n) (h : pySliceLast v n = Except.ok items) :
    items.length ≤ n := by
  cases v with
  | arr xs =>
    simp only [pySliceLast] at h
    rw [if_neg (by omega)] at h
    cases h
    rw [List.length_drop]
    omega
  | str s =>
    simp only [pySliceLast] at h
    rw [if_neg (by omega)] at h
    cases h
    rw [List.length_drop, List.length_map]
    omega
  | null => cases h
  | bool b => cases h
  | num m => cases h
  | obj fs => cases h

theorem load_ok_length (N : Nat) (hN : 1 ≤ N) (fs : FileState)
    (out : List PRecord) (h : load_from_file N fs = Except.ok out) :
    out.length ≤ N := by
  cases fs with
  | absent => cases h; exact Nat.zero_le N
  | unreadable => cases h; exact Nat.zero_le N
  | invalidJson => cases h; exact Nat.zero_le N
  | json v =>
    simp only [load_from_file] at h
    cases hb : loadBody N v with
    | ok recs =>
      rw [hb] at h
      cases h
      simp only [loadBody] at hb
      cases hs : pySliceLast v N with
      | error e => rw [hs] at hb; cases hb
      | ok items =>
        rw [hs] at hb
        have h1 := pySliceLast_ok_length v N items hN hs
        have h2 := mapDecode_length items _ hb
        omega
    | error e =>
      rw [hb] at h
      cases e with
      | jsonDecodeError => cases h; exact Nat.zero_le N
      | ioError => cases h; exact Nat.zero_le N
      | typeError => cases h
      | indexError => cases h
      | keyError => cases h

theorem toLower_of_space (c : Char) (h : isPySpace c = true) :
    Char.toLower c = c := by
  simp only [isPySpace, Bool.or_eq_true, beq_iff_eq] at h
  rcases h with ((((h | h) | h) | h) | h) | h <;> subst h <;> decide

theorem isPySpace_toLower (c : Char) (h : isPySpace c = true) :
    isPySpace (Char.toLower c) = true := by
  rw [toLower_of_space c h]
  exact h

theorem splitWSAux_all_space (cs : List Char)
    (h : ∀ c ∈ cs, isPySpace c = true) : splitWSAux cs [] = [] := by
  induction cs with
  | nil => rfl
  | cons c rest ih =>
    have hc : isPySpace c = true := h c (List.mem_cons_self c rest)
    simp only [splitWSAux, hc, if_true]
    exact ih (fun d hd => h d (List.mem_cons_of_mem c hd))

theorem pyEndsWith_q_false_of_space (s : String)
    (h : ∀ c ∈ s.data, isPySpace c = true) : pyEndsWith s "?" = false := by
  unfold pyEndsWith
  rw [decide_eq_false_iff_not]
  intro hs
  rcases hs with ⟨t, ht⟩
  have hmem : '?' ∈ s.data := by
    rw [← ht]
    exact List.mem_append_right t (by simp)
  exact absurd (h _ hmem) (by decide)

/-! ### Claim theorems -/

/-- C2: for every input string, `analyze_sentiment` counts whitespace
tokens of the lowercased message (punctuation-stripped) against the fixed
positive and negative word sets and returns "positive" iff the positive
count exceeds the negative count and is nonzero, "negative" iff the
negative count exceeds the positive count and is nonzero, and "neutral"
otherwise; ties of equal nonzero counts and the empty message yield
"neutral", and the result is always one of the three labels. -/
theorem analyze_sentiment_spec (message : String) :
    (analyze_sentiment message = "positive" ∨
      analyze_sentiment message = "negative" ∨
      analyze_sentiment message = "neutral") ∧
    (analyze_sentiment message = "positive" ↔
      posCount message > negCount message ∧ posCount message > 0) ∧
    (analyze_sentiment message = "negative" ↔
      negCount message > posCount message ∧ negCount message > 0) ∧
    (posCount message = negCount message →
      analyze_sentiment message = "neutral") ∧
    (pySplit (pyLower message) = [] →
      analyze_sentiment message = "neutral") := by
  unfold analyze_sentiment
  by_cases h1 : posCount message > negCount message ∧ posCount message > 0
  · rw [if_pos h1]
    refine ⟨Or.inl rfl, iff_of_true rfl h1, iff_of_false (by decide) (by omega),
      fun he => absurd he (by omega), fun he => ?_⟩
    exfalso
    have hp0 : posCount message = 0 := by
      unfold posCount
      rw [he]
      rfl
    omega
  · rw [if_neg h1]
    by_cases h2 : negCount message > posCount message ∧ negCount message > 0
    · rw [if_pos h2]
      refine ⟨Or.inr (Or.inl rfl), iff_of_false (by decide) h1, iff_of_true rfl h2,
        fun he => absurd he (by omega), fun he => ?_⟩
      exfalso
      have hn0 : negCount message = 0 := by
        unfold negCount
        rw [he]
        rfl
      omega
    · rw [if_neg h2]
      exact ⟨Or.inr (Or.inr rfl), iff_of_false (by decide) h1,
        iff_of_false (by decide) h2, fun _ => rfl, fun _ => rfl⟩

/-- Witness for C2: the empty message evaluates to "neutral". -/
theorem analyze_sentiment_spec_witness : analyze_sentiment "" = "neutral" :=
  (analyze_sentiment_spec "").2.2.2.2 rfl

/-- C3: `classify_intent` lowercases the message, splits it into whitespace
tokens, and returns the first matching label in the fixed precedence order
command, greeting, question (token in the question set or trailing
question mark), statement; in particular a command word wins over greeting
and question words present in the same message. -/
theorem classify_intent_spec (message : String) :
    (classify_intent message = "command" ↔
      (pySplit (pyLower message)).any
        (fun word => COMMAND_WORDS.contains word) = true) ∧
    (classify_intent message = "greeting" ↔
      ((pySplit (pyLower message)).any
          (fun word => COMMAND_WORDS.contains word) = false ∧
       (pySplit (pyLower message)).any
          (fun word => GREETING_WORDS.contains word) = true)) ∧
    (classify_intent message = "question" ↔
      ((pySplit (pyLower message)).any
          (fun word => COMMAND_WORDS.contains word) = false ∧
       (pySplit (pyLower message)).any
          (fun word => GREETING_WORDS.contains word) = false ∧
       ((pySplit (pyLower message)).any
          (fun word => QUESTION_WORDS.contains word)
         || pyEndsWith (pyLower message) "?") = true)) ∧
    (classify_intent message = "statement" ↔
      ((pySplit (pyLower message)).any
          (fun word => COMMAND_WORDS.contains word) = false ∧
       (pySplit (pyLower message)).any
          (fun word => GREETING_WORDS.contains word) = false ∧
       ((pySplit (pyLower message)).any
          (fun word => QUESTION_WORDS.contains word)
         || pyEndsWith (pyLower message) "?") = false)) := by
  simp only [classify_intent]
  by_cases hc : (pySplit (pyLower message)).any
      (fun word => COMMAND_WORDS.contains word) = true
  · rw [if_pos hc]
    refine ⟨iff_of_true rfl hc, iff_of_false (by decide) ?_,
      iff_of_false (by decide) ?_, iff_of_false (by decide) ?_⟩
    all_goals exact fun hcontra => Bool.noConfusion (hcontra.1.symm.trans hc)
  · rw [if_neg hc]
    have hcf : (pySplit (pyLower message)).any
        (fun word => COMMAND_WORDS.contains word) = false :=
      Bool.of_not_eq_true hc
    by_cases hg : (pySplit (pyLower message)).any
        (fun word => GREETING_WORDS.contains word) = true
    · rw [if_pos hg]
      refine ⟨iff_of_false (by decide) hc, iff_of_true rfl ⟨hcf, hg⟩,
        iff_of_false (by decide) ?_, iff_of_false (by decide) ?_⟩
      all_goals exact fun hcontra => Bool.noConfusion (hcontra.2.1.symm.trans hg)
    · rw [if_neg hg]
      have hgf : (pySplit (pyLower message)).any
          (fun word => GREETING_WORDS.contains word) = false :=
        Bool.of_not_eq_true hg
      by_cases hq : ((pySplit (pyLower message)).any
          (fun word => QUESTION_WORDS.contains word)
            || pyEndsWith (pyLower message) "?") = true
      · rw [if_pos hq]
        exact ⟨iff_of_false (by decide) hc,
          iff_of_false (by decide) (fun he => hg he.2),
          iff_of_true rfl ⟨hcf, hgf, hq⟩,
          iff_of_false (by decide)
            (fun he => Bool.noConfusion (he.2.2.symm.trans hq))⟩
      · rw [if_neg hq]
        have hqf : ((pySplit (pyLower message)).any
            (fun word => QUESTION_WORDS.contains word)
              || pyEndsWith (pyLower message) "?") = false :=
          Bool.of_not_eq_true hq
        exact ⟨iff_of_false (by decide) hc,
          iff_of_false (by decide) (fun he => hg he.2),
          iff_of_false (by decide)
            (fun he => Bool.noConfusion (hqf.symm.trans he.2.2)),
          iff_of_true rfl ⟨hcf, hgf, hqf⟩⟩

/-- Witness for C3: "history" is classified as a command. -/
theorem classify_intent_spec_witness : classify_intent "history" = "command" :=
  (classify_intent_spec "history").1.mpr (by decide)

/-- C10: the empty string and every whitespace-only string are classified
as "statement": they produce no tokens, so no word set matches, and the
message does not end with a question mark. -/
theorem classify_intent_blank_statement (message : String)
    (h : ∀ c ∈ message.data, isPySpace c = true) :
    classify_intent message = "statement" := by
  have hdata : (pyLower message).data = message.data.map Char.toLower := rfl
  have hlow : ∀ c ∈ (pyLower message).data, isPySpace c = true := by
    intro c hc
    rw [hdata] at hc
    rcases List.mem_map.mp hc with ⟨d, hd, rfl⟩
    exact isPySpace_toLower d (h d hd)
  have hsplit : pySplit (pyLower message) = [] := by
    unfold pySplit splitWS
    rw [hdata, splitWSAux_all_space _ (hdata ▸ hlow)]
    rfl
  have hq : pyEndsWith (pyLower message) "?" = false :=
    pyEndsWith_q_false_of_space _ hlow
  simp [classify_intent, hsplit, hq]

/-- Witness for C10: the empty string is classified as "statement". -/
theorem classify_intent_blank_statement_witness :
    classify_intent "" = "statement" :=
  classify_intent_blank_statement "" (by intro c hc; cases hc)

/-- C6: for every non-blank message whose lowercased text contains a key of
the ordered `RESPONSES` table as a substring, `get_response` returns the
response of the first such key, the same string on every call, independent
of the sentiment and intent arguments and of the random source; matching is
by substring, not word boundary. -/
theorem get_response_keyword_deterministic (message : String)
    (kv : String × String)
    (hkey : RESPONSES.find? (fun p => pySubstr p.1 (pyLower message)) = some kv)
    (hnb : ¬ pyStripWS message = "") :
    ∀ (choice choice2 : List String → String)
      (sentiment intent sentiment2 intent2 : String),
      get_response choice message sentiment intent = kv.2 ∧
      get_response choice message sentiment intent =
        get_response choice2 message sentiment2 intent2 := by
  intro choice choice2 sentiment intent sentiment2 intent2
  simp only [get_response]
  rw [if_neg hnb, if_neg hnb, hkey]
  exact ⟨rfl, rfl⟩

/-- Witness for C6: "goodbyebird" contains "bye" as a substring (not as a
word) and always receives the fixed farewell response. -/
theorem get_response_keyword_deterministic_witness :
    RESPONSES.find? (fun p => pySubstr p.1 (pyLower "goodbyebird")) =
      some ("bye", "Goodbye! Have a great day!") ∧
    get_response (fun _ => "A") "goodbyebird" "positive" "question" =
      "Goodbye! Have a great day!" :=
  ⟨by rfl,
    (get_response_keyword_deterministic "goodbyebird"
      ("bye", "Goodbye! Have a great day!") (by rfl) (by decide)
      (fun _ => "A") (fun _ => "B") "positive" "question" "negative"
      "greeting").1⟩

/-- C7: a failing persistence write during `add` is reported only as a
warning and never as an exception (the embedding of `add` is total), the
in-memory buffer still ends with the newly appended turn, and the buffer
is the same as it would be with a successful write. -/
theorem add_write_failure_nonfatal (msgs : List Turn) (maxSize : Nat)
    (h : 1 ≤ maxSize) (sp tx se : String) :
    (add msgs maxSize sp tx se true).2 = WriteResult.warning ∧
    ((add msgs maxSize sp tx se true).1).getLast? = some (Turn.mk sp tx se) ∧
    (add msgs maxSize sp tx se true).1 = (add msgs maxSize sp tx se false).1 := by
  refine ⟨rfl, ?_, rfl⟩
  show (addEvict msgs maxSize (Turn.mk sp tx se)).getLast? = _
  unfold addEvict
  by_cases hc : maxSize < (msgs ++ [Turn.mk sp tx se]).length
  · rw [if_pos hc]
    cases msgs with
    | nil =>
      exfalso
      simp only [List.nil_append, List.length_cons, List.length_nil] at hc
      omega
    | cons m ms =>
      rw [List.cons_append, List.drop_succ_cons, List.drop_zero]
      exact List.getLast?_concat _
  · rw [if_neg hc]
    exact List.getLast?_concat _

/-- Witness for C7: adding to a full 10-element buffer with a failing write
warns and keeps the new turn last. -/
theorem add_write_failure_nonfatal_witness :
    (add (List.replicate 10 (Turn.mk "user" "m" "neutral")) 10 "user" "hi"
      "positive" true).2 = WriteResult.warning ∧
    ((add (List.replicate 10 (Turn.mk "user" "m" "neutral")) 10 "user" "hi"
      "positive" true).1).getLast? = some (Turn.mk "user" "hi" "positive") :=
  ⟨(add_write_failure_nonfatal (List.replicate 10 (Turn.mk "user" "m" "neutral"))
      10 (by decide) "user" "hi" "positive").1,
   (add_write_failure_nonfatal (List.replicate 10 (Turn.mk "user" "m" "neutral"))
      10 (by decide) "user" "hi" "positive").2.1⟩

theorem foldl_snoc_eq_append (f : Turn → String) (l : List Turn) :
    ∀ init : List String,
      l.foldl (fun lines t => lines ++ [f t]) init = init ++ l.map f := by
  induction l with
  | nil => intro init; simp
  | cons t ts ih =>
    intro init
    simp only [List.foldl_cons, List.map_cons, ih, List.append_assoc,
      List.singleton_append]

/-- C9: `display` renders the empty history as the single no-history line;
a non-empty history renders as the header line followed by one line per
turn in buffer order, joined by newlines, where each turn line carries the
emoji of the turn sentiment and the label "You" for user turns and "Bot"
for bot turns, followed by the turn text. -/
theorem display_spec (msgs : List Turn) :
    (msgs = [] → display msgs = "No conversation history yet.") ∧
    (msgs ≠ [] →
      display msgs = String.intercalate "\n"
        ("ðŸ“ Conversation History:" :: msgs.map displayLine) ∧
      ("ðŸ“ Conversation History:" :: msgs.map displayLine).length =
        msgs.length + 1 ∧
      ∀ t ∈ msgs, displayLine t =
        "  " ++ get_sentiment_emoji t.sentiment ++ " " ++
          (if t.speaker = "user" then "You" else "Bot") ++ ": " ++ t.text) := by
  constructor
  · intro h
    subst h
    rfl
  · intro h
    have hne : msgs.isEmpty = false := by
      cases msgs with
      | nil => exact absurd rfl h
      | cons a as => rfl
    refine ⟨?_, by simp, fun t _ => rfl⟩
    have h1 : display msgs = String.intercalate "\n"
        (msgs.foldl (fun lines t => lines ++ [displayLine t])
          ["ðŸ“ Conversation History:"]) := by
      simp [display, hne]
    rw [h1, foldl_snoc_eq_append displayLine msgs]
    rfl

/-- Witness for C9: a one-turn history renders as header plus one line. -/
theorem display_spec_witness :
    display [Turn.mk "user" "hi" "positive"] =
      String.intercalate "\n" ("ðŸ“ Conversation History:" ::
        [Turn.mk "user" "hi" "positive"].map displayLine) :=
  ((display_spec [Turn.mk "user" "hi" "positive"]).2 (by simp)).1

/-- C4 (amended): when the persistence file is absent, unreadable (open or
read raises IOError), or not syntactically valid JSON, loading yields an
empty in-memory history and raises nothing; silent recovery does NOT extend
to files holding syntactically valid JSON whose shape is not the persisted
format, where an uncaught exception escapes the loader (see the
counterexample). -/
theorem load_silent_recovery (N : Nat) :
    load_from_file N FileState.absent = Except.ok [] ∧
    load_from_file N FileState.unreadable = Except.ok [] ∧
    load_from_file N FileState.invalidJson = Except.ok [] :=
  ⟨rfl, rfl, rfl⟩

/-- Counterexample to C4 as stated: a readable file containing the valid
JSON document `5` is "not valid in the persisted format", yet loading it
raises an uncaught TypeError (slicing an int) instead of producing an
empty history, because only JSONDecodeError and IOError are caught. -/
theorem load_raises_on_json_number :
    load_from_file 10 (FileState.json (JValue.num 5)) =
      Except.error PyErr.typeError := rfl

theorem load_json_arr (N : Nat) (hN : 1 ≤ N) (recs : List JValue)
    (out : List PRecord)
    (h : mapDecode (recs.drop (recs.length - N)) = Except.ok out) :
    load_from_file N (FileState.json (JValue.arr recs)) = Except.ok out := by
  have hb : loadBody N (JValue.arr recs) = Except.ok out := by
    simp only [loadBody, pySliceLast]
    rw [if_neg (by omega : ¬ N = 0)]
    exact h
  simp only [load_from_file, hb]

/-- C5: persisting a history of at most `N` turns and loading it back
reproduces exactly the same ordered sequence of turns (as string records);
when the file holds more than `N` records, loading retains exactly the
most recent `N`. -/
theorem save_load_roundtrip (N : Nat) (hN : 1 ≤ N) (msgs : List Turn) :
    (msgs.length ≤ N → ∀ f : FileState,
      save_to_file msgs false = WriteResult.written f →
      load_from_file N f = Except.ok (msgs.map toPRecord)) ∧
    (N < msgs.length →
      load_from_file N (FileState.json (encodeHistory msgs)) =
        Except.ok ((lastN N msgs).map toPRecord)) := by
  constructor
  · intro hlen f hf
    have hws : save_to_file msgs false =
        WriteResult.written (FileState.json (encodeHistory msgs)) := rfl
    rw [hws] at hf
    injection hf with hf
    subst hf
    show load_from_file N (FileState.json (JValue.arr (msgs.map encodeTurn))) = _
    apply load_json_arr N hN
    rw [List.length_map, Nat.sub_eq_zero_of_le hlen, List.drop_zero]
    exact mapDecode_encode msgs
  · intro hlt
    show load_from_file N (FileState.json (JValue.arr (msgs.map encodeTurn))) = _
    apply load_json_arr N hN
    rw [List.length_map, ← List.map_drop]
    exact mapDecode_encode _

/-- Witness for C5: a two-turn history round-trips through the file at the
default capacity 10. -/
theorem save_load_roundtrip_witness :
    load_from_file 10 (FileState.json (encodeHistory
      [Turn.mk "user" "hi" "positive", Turn.mk "bot" "yo" "neutral"])) =
      Except.ok ([Turn.mk "user" "hi" "positive",
        Turn.mk "bot" "yo" "neutral"].map toPRecord) :=
  (save_load_roundtrip 10 (by decide)
    [Turn.mk "user" "hi" "positive", Turn.mk "bot" "yo" "neutral"]).1
    (by decide) (FileState.json (encodeHistory
      [Turn.mk "user" "hi" "positive", Turn.mk "bot" "yo" "neutral"])) rfl

/-- C8: a persisted record that is an array of only two fields (speaker and
text, missing the sentiment) is kept by the loader at its position with the
sentiment backfilled to "neutral", rather than rejected or raising. -/
theorem load_backfills_missing_sentiment (N : Nat) (hN : 1 ≤ N)
    (pre post : List JValue) (o1 o2 : List PRecord) (sp tx : JValue)
    (hlen : pre.length + 1 + post.length ≤ N)
    (hpre : mapDecode pre = Except.ok o1)
    (hpost : mapDecode post = Except.ok o2) :
    load_from_file N
        (FileState.json (JValue.arr (pre ++ JValue.arr [sp, tx] :: post))) =
      Except.ok (o1 ++ (sp, tx, JValue.str "neutral") :: o2) ∧
    (o1 ++ (sp, tx, JValue.str "neutral") :: o2).length =
      pre.length + 1 + post.length ∧
    (o1 ++ (sp, tx, JValue.str "neutral") :: o2)[o1.length]? =
      some (sp, tx, JValue.str "neutral") := by
  have hrec : decodeRecord (JValue.arr [sp, tx]) =
      Except.ok (sp, tx, JValue.str "neutral") := rfl
  have hmid : mapDecode (JValue.arr [sp, tx] :: post) =
      Except.ok ((sp, tx, JValue.str "neutral") :: o2) :=
    mapDecode_cons _ _ _ _ hrec hpost
  have hall := mapDecode_append pre _ o1 _ hpre hmid
  have hl1 := mapDecode_length pre o1 hpre
  have hl2 := mapDecode_length post o2 hpost
  refine ⟨?_, ?_, ?_⟩
  · apply load_json_arr N hN
    rw [show (pre ++ JValue.arr [sp, tx] :: post).length - N = 0 by
      simp only [List.length_append, List.length_cons]
      omega]
    rw [List.drop_zero]
    exact hall
  · simp only [List.length_append, List.length_cons, hl1, hl2]
    omega
  · rw [List.getElem?_append_right (Nat.le_refl o1.length), Nat.sub_self]
    simp

/-- Witness for C8: a file with one well-formed record followed by one
two-field record loads with the sentiment of the latter backfilled. -/
theorem load_backfills_missing_sentiment_witness :
    load_from_file 10 (FileState.json (JValue.arr
      [encodeTurn (Turn.mk "user" "hi" "positive"),
       JValue.arr [JValue.str "bot", JValue.str "ok"]])) =
      Except.ok [toPRecord (Turn.mk "user" "hi" "positive"),
        (JValue.str "bot", JValue.str "ok", JValue.str "neutral")] :=
  (load_backfills_missing_sentiment 10 (by decide)
    [encodeTurn (Turn.mk "user" "hi" "positive")] []
    [toPRecord (Turn.mk "user" "hi" "positive")] []
    (JValue.str "bot") (JValue.str "ok") (by decide) (by rfl) (by rfl)).1

/-- C1: with capacity `N ≥ 1` (default 10), every mutation leaves the
buffer length at most `N`: `add` preserves the bound, `clear` empties the
buffer, and a successful construction-time load yields at most `N` records;
moreover iterated `add` starting from any valid buffer realises FIFO
eviction — the buffer always equals the last `N` elements of (initial
buffer ++ turns added), so after at least `N` adds it holds exactly the
last `N` added turns in append order. -/
theorem history_capacity_invariant (N : Nat) (hN : 1 ≤ N) :
    (∀ (msgs : List Turn) (sp tx se : String) (io : Bool),
      msgs.length ≤ N → ((add msgs N sp tx se io).1).length ≤ N) ∧
    (∀ io : Bool, ((clear io).1).length = 0) ∧
    (∀ (fs : FileState) (out : List PRecord),
      load_from_file N fs = Except.ok out → out.length ≤ N) ∧
    (∀ msgs ts : List Turn, msgs.length ≤ N →
      addAllEvict N msgs ts = lastN N (msgs ++ ts) ∧
      (N ≤ ts.length →
        addAllEvict N msgs ts = lastN N ts ∧
        (addAllEvict N msgs ts).length = N)) := by
  refine ⟨?_, ?_, ?_, ?_⟩
  · intro msgs sp tx se io h
    exact addEvict_length_le msgs N _ h
  · intro io
    rfl
  · intro fs out h
    exact load_ok_length N hN fs out h
  · intro msgs ts h
    refine ⟨addAllEvict_eq_lastN N ts msgs h, fun hts => ?_⟩
    have h1 : addAllEvict N msgs ts = lastN N ts := by
      rw [addAllEvict_eq_lastN N ts msgs h, lastN_append N msgs ts hts]
    refine ⟨h1, ?_⟩
    rw [h1, lastN_length]
    omega

/-- Witness for C1: twelve consecutive adds into an initially empty buffer
of capacity 10 leave exactly the last ten turns. -/
theorem history_capacity_invariant_witness :
    1 ≤ 10 ∧
    addAllEvict 10 ([] : List Turn)
        (List.replicate 12 (Turn.mk "user" "m" "neutral")) =
      lastN 10 (List.replicate 12 (Turn.mk "user" "m" "neutral")) ∧
    (addAllEvict 10 ([] : List Turn)
        (List.replicate 12 (Turn.mk "user" "m" "neutral"))).length = 10 :=
  ⟨by decide,
    ((history_capacity_invariant 10 (by decide)).2.2.2 []
      (List.replicate 12 (Turn.mk "user" "m" "neutral")) (by decide)).2
      (by decide) |>.1,
    ((history_capacity_invariant 10 (by decide)).2.2.2 []
      (List.replicate 12 (Turn.mk "user" "m" "neutral")) (by decide)).2
      (by decide) |>.2⟩

end Chatbot
